import Mathlib

/-!
Verification of the transcript cache / search / auth subsystem of the
youtube-skill command-line scripts.  Python functions from
`scripts/yt_transcripts.py`, `scripts/yt_auth.py`, `scripts/yt_video.py`
and `scripts/yt_analytics.py` are shallowly embedded as executable Lean
definitions; external collaborators (the YouTube API, the transcript
library, the OAuth token endpoint, the clock) are passed in as explicit
oracle parameters.
-/

namespace YTSkill

/-! ## Basic helpers -/

/-- Python `f"{n:02d}"` for a non-negative integer: zero-pad to width 2. -/
def pad2 (n : Nat) : String :=
  if n < 10 then "0" ++ toString n else toString n

/-- Python's `" ".join(...)`. -/
def joinSpace (l : List String) : String :=
  String.intercalate " " l

/-- Python `str.lower()`, restricted to the per-character case mapping
(faithful on ASCII text). -/
def lower (s : String) : String :=
  String.mk (s.toList.map Char.toLower)

/-- Python's substring test `needle in hay` on strings. -/
def occursIn (needle hay : String) : Bool :=
  decide (needle.toList <:+: hay.toList)

/-- Pointwise update of a string-keyed partial map, modelling one file
write (or deletion) in a directory or one key update in a JSON object. -/
def updFn {α : Type} (f : String → Option α) (k : String) (v : Option α) :
    String → Option α :=
  fun x => if x = k then v else f x

/-! ## `format_timestamp` (yt_transcripts.py lines 91-98, identical copy in
yt_video.py lines 94-101)

```python
def format_timestamp(seconds: float) -> str:
    total_seconds = int(seconds)
    h, remainder = divmod(total_seconds, 3600)
    m, s = divmod(remainder, 60)
    if h:
        return f"{h}:{m:02d}:{s:02d}"
    return f"{m}:{s:02d}"
```
The input is modelled as the already-truncated non-negative integer. -/

def format_timestamp (seconds : Nat) : String :=
  let h := seconds / 3600
  let remainder := seconds % 3600
  let m := remainder / 60
  let s := remainder % 60
  if h ≠ 0 then
    toString h ++ ":" ++ pad2 m ++ ":" ++ pad2 s
  else
    toString m ++ ":" ++ pad2 s

/-! ## `format_duration` (yt_analytics.py lines 96-104)

```python
def format_duration(minutes: float) -> str:
    if minutes < 60:
        return f"{minutes:.1f} min"
    hours = minutes / 60
    if hours < 24:
        return f"{hours:.1f} hrs"
    days = hours / 24
    return f"{days:.1f} days"
```
Modelled over exact rationals; `"%.1f"` rounds to the nearest tenth with
ties going to the even digit, as C `printf` does on the float value. -/

/-- Round to the nearest integer, ties to even. -/
def roundTiesEven (q : ℚ) : ℤ :=
  let f := ⌊q⌋
  let r := q - (f : ℚ)
  if r < 1/2 then f
  else if 1/2 < r then f + 1
  else if f % 2 = 0 then f else f + 1

/-- Python `f"{q:.1f}"` for a non-negative rational value. -/
def fmt1 (q : ℚ) : String :=
  let n := (roundTiesEven (q * 10)).toNat
  toString (n / 10) ++ "." ++ toString (n % 10)

def format_duration (minutes : ℚ) : String :=
  if minutes < 60 then fmt1 minutes ++ " min"
  else
    let hours := minutes / 60
    if hours < 24 then fmt1 hours ++ " hrs"
    else
      let days := hours / 24
      fmt1 days ++ " days"

/-! ## Data model of the transcript cache (yt_transcripts.py)

A cached transcript file holds
`{video_id, title, published, channel, is_own_video, segments, full_text}`,
a segment being `{"start": int, "text": str}`; the index file maps a video
id to `{title, published, has_transcript, is_own_video}`. -/

/-- One transcript segment: a start offset in whole seconds and its text. -/
structure Segment where
  start : Nat
  text : String
deriving DecidableEq

/-- The content of one cached per-video transcript JSON file. -/
structure TranscriptData where
  video_id : String
  title : String
  published : String
  channel : String
  is_own_video : Bool
  segments : List Segment
  full_text : String
deriving DecidableEq

/-- One entry of `transcript_index.json`. -/
structure IndexEntry where
  title : String
  published : String
  has_transcript : Bool
  is_own_video : Bool
deriving DecidableEq

/-- The on-disk state the transcript commands operate on: the cache
directory (`video_id` → file content) and the index file. -/
structure CacheState where
  files : String → Option TranscriptData
  index : String → Option IndexEntry

/-! ## `cmd_search` (yt_transcripts.py lines 245-303)

The cache directory is modelled as the list of transcript files the
`glob("*.json")` loop visits, in visit order. -/

/-- One result row appended by the segment-scanning loop. -/
structure SearchResult where
  video_id : String
  title : String
  timestamp : Nat
  text : String
  is_own : Bool
deriving DecidableEq

/-- The result row built for a matching segment of transcript `d`. -/
def mkResult (d : TranscriptData) (seg : Segment) : SearchResult :=
  ⟨d.video_id, d.title, seg.start, seg.text, d.is_own_video⟩

/-- The rows contributed by one transcript file: every segment whose
lowercased text contains the (already lowercased) query. -/
def matchesOf (query : String) (d : TranscriptData) : List SearchResult :=
  (d.segments.filter fun seg => occursIn query (lower seg.text)).map (mkResult d)

/-- The sort key used by `results.sort(key=lambda r: (r["video_id"], r["timestamp"]))`:
lexicographic on the pair. -/
def searchLE (a b : SearchResult) : Bool :=
  decide (a.video_id < b.video_id ∨ (a.video_id = b.video_id ∧ a.timestamp ≤ b.timestamp))

/-- The sorted result list `cmd_search` builds before printing. -/
def searchResults (cache : List TranscriptData) (query : String) : List SearchResult :=
  ((cache.map (matchesOf (lower query))).flatten).mergeSort searchLE

/-- One line of `cmd_search` terminal output, as structured data:
a per-video header (with its `[external]` flag), one match line
(the code prints its timestamp, text and link), the `... and N more matches`
trailer, or the two messages printed outside the main loop. -/
inductive OutLine where
  | header (video_id : String) (title : String) (external : Bool)
  | hit (r : SearchResult)
  | more (remaining : Nat)
  | found (n : Nat) (query : String)
  | noMatch (query : String)
deriving DecidableEq

/-- The printing loop of `cmd_search`: `shown` counts printed matches, `cur`
is `current_video`; on reaching `max` the loop reports the remaining count
and stops. -/
def renderLoop (maxR : Nat) : List SearchResult → Nat → Option String → List OutLine
  | [], _, _ => []
  | r :: rest, shown, cur =>
    if maxR ≤ shown then
      if 0 < (r :: rest).length then [OutLine.more (r :: rest).length] else []
    else if cur = some r.video_id then
      OutLine.hit r :: renderLoop maxR rest (shown + 1) (some r.video_id)
    else
      OutLine.header r.video_id r.title (!r.is_own) ::
        OutLine.hit r :: renderLoop maxR rest (shown + 1) (some r.video_id)

/-- `cmd_search`: collect, sort, and print. -/
def cmd_search (cache : List TranscriptData) (query : String) (maxR : Nat) :
    List OutLine :=
  let results := searchResults cache query
  if results.isEmpty then [OutLine.noMatch query]
  else OutLine.found results.length query :: renderLoop maxR results 0 none

/-- The match rows among the printed lines, in print order. -/
def hitsOf (l : List OutLine) : List SearchResult :=
  l.filterMap fun
    | OutLine.hit r => some r
    | _ => none

/-- The video ids of the printed per-video headers, in print order. -/
def headerIds (l : List OutLine) : List String :=
  l.filterMap fun
    | OutLine.header v _ _ => some v
    | _ => none

/-- The `... and N more matches` trailer, when one is printed. -/
def trailerOf (l : List OutLine) : Option Nat :=
  l.findSome? fun
    | OutLine.more n => some n
    | _ => none

/-! ## `cmd_sync` (yt_transcripts.py lines 141-242)

The playlist enumeration yields a list of videos; `fetch_transcript` is an
external collaborator, modelled as an oracle `fetch : video_id → Option
(List Segment)` (`none` covers captions disabled, no transcript in any
language, video unavailable, and any other swallowed exception).  Besides
the resulting state and the three counters the outcome records, for the
effect claims, the ids passed to `fetch_transcript` and the ids whose
transcript file was written, in order. -/

/-- One video row from the uploads playlist response. -/
structure Video where
  videoId : String
  title : String
  publishedAt : String
deriving DecidableEq

/-- Accumulated outcome of the sync loop. -/
structure SyncOutcome where
  state : CacheState
  synced : Nat
  skipped : Nat
  failed : Nat
  fetched : List String
  written : List String

/-- The body of the per-video loop of `cmd_sync`. -/
def syncVideo (fetch : String → Option (List Segment)) (channelTitle : String)
    (force : Bool) (o : SyncOutcome) (v : Video) : SyncOutcome :=
  if (o.state.files v.videoId).isSome ∧ ¬force then
    { o with skipped := o.skipped + 1 }
  else
    match fetch v.videoId with
    | some segments =>
      let transcript_data : TranscriptData :=
        { video_id := v.videoId
          title := v.title
          published := v.publishedAt
          channel := channelTitle
          is_own_video := true
          segments := segments
          full_text := joinSpace (segments.map Segment.text) }
      { state :=
          { files := updFn o.state.files v.videoId (some transcript_data)
            index := updFn o.state.index v.videoId
              (some ⟨v.title, v.publishedAt, true, true⟩) }
        synced := o.synced + 1
        skipped := o.skipped
        failed := o.failed
        fetched := o.fetched ++ [v.videoId]
        written := o.written ++ [v.videoId] }
    | none =>
      { state :=
          { files := o.state.files
            index := updFn o.state.index v.videoId
              (some ⟨v.title, v.publishedAt, false, true⟩) }
        synced := o.synced
        skipped := o.skipped
        failed := o.failed + 1
        fetched := o.fetched ++ [v.videoId]
        written := o.written }

/-- The sync loop over the enumerated videos. -/
def syncLoop (fetch : String → Option (List Segment)) (channelTitle : String)
    (force : Bool) : List Video → SyncOutcome → SyncOutcome
  | [], o => o
  | v :: vs, o => syncLoop fetch channelTitle force vs (syncVideo fetch channelTitle force o v)

/-- `cmd_sync`, from the loop over the enumerated uploads to the final
`save_index` (index updates are buffered in memory and become visible in
the resulting state, exactly as the single save at the end makes them). -/
def cmd_sync (videos : List Video) (fetch : String → Option (List Segment))
    (channelTitle : String) (force : Bool) (s : CacheState) : SyncOutcome :=
  syncLoop fetch channelTitle force videos ⟨s, 0, 0, 0, [], []⟩

/-! ## `load_credentials` (yt_auth.py lines 155-182; byte-identical logic in
yt_transcripts.py lines 46-68 and yt_video.py lines 45-67)

The token file content; a missing JSON field is modelled as `""` (both are
falsy in the Python truthiness tests involved). -/

structure TokenData where
  token : String
  refresh_token : String
  token_uri : String
  client_id : String
  client_secret : String
  scopes : List String
deriving DecidableEq

/-- The in-memory `google.oauth2.credentials.Credentials` object, reduced
to the fields this code reads and writes. -/
structure Credentials where
  token : String
  refresh_token : String
  token_uri : String
  client_id : String
  client_secret : String
  scopes : List String
deriving DecidableEq

/-- `load_credentials`.  `file` is the token file content (`none`: no file),
`expired` is the library's `creds.expired` test against the clock, and
`newToken` the access token the identity provider returns on refresh.
Result: the returned credentials (`none` signals "no credentials") and the
token file content after the call. -/
def load_credentials (file : Option TokenData) (expired : Bool)
    (newToken : String) : Option Credentials × Option TokenData :=
  match file with
  | none => (none, none)
  | some token_data =>
    let creds : Credentials :=
      { token := token_data.token
        refresh_token := token_data.refresh_token
        token_uri := token_data.token_uri
        client_id := token_data.client_id
        client_secret := token_data.client_secret
        scopes := token_data.scopes }
    if expired ∧ creds.refresh_token ≠ "" then
      let refreshed := { creds with token := newToken }
      (some refreshed, some { token_data with token := refreshed.token })
    else
      (some creds, some token_data)

/-! ## `cmd_comments` (yt_video.py lines 143-179)

The `commentThreads().list(...).execute()` call is an oracle: either the
item list, or a raised exception carrying its message string.  The body's
HTML cleanup (`str.replace` for entities, `re.sub(r'<br\s*/?>', '\n', ...)`
and `re.sub(r'<[^>]+>', '', ...)`) is embedded below; the two `re.sub`
scans are written with an explicit fuel argument (the scan consumes at
least one character per step, so fuel = input length suffices). -/

/-- The relevant fields of one comment thread item
(`item["snippet"]["topLevelComment"]["snippet"]`). -/
structure Comment where
  authorDisplayName : String
  textDisplay : String
  likeCount : Nat
deriving DecidableEq

/-- The outcome of an `execute()` call on the remote API. -/
inductive ApiResult (α : Type) where
  | ok (val : α)
  | err (msg : String)

/-- Python `\s` on ASCII text. -/
def isPySpace (c : Char) : Bool :=
  c = ' ' ∨ c = '\t' ∨ c = '\n' ∨ c = '\r' ∨ c = '\x0b' ∨ c = '\x0c'

/-- After the `br` of `<br`, match `\s*/?>`; returns the rest on success. -/
def matchBrTail : List Char → Option (List Char)
  | [] => none
  | c :: rest =>
    if isPySpace c then matchBrTail rest
    else if c = '/' then
      match rest with
      | '>' :: r => some r
      | _ => none
    else if c = '>' then some rest
    else none

/-- After a `<`, match `br\s*/?>`; returns the rest on success. -/
def matchBr : List Char → Option (List Char)
  | 'b' :: 'r' :: rest => matchBrTail rest
  | _ => none

/-- The scan of `re.sub(r'<br\s*/?>', '\n', text)`. -/
def subBr : Nat → List Char → List Char
  | 0, l => l
  | _ + 1, [] => []
  | fuel + 1, c :: rest =>
    if c = '<' then
      match matchBr rest with
      | some r => '\n' :: subBr fuel r
      | none => c :: subBr fuel rest
    else c :: subBr fuel rest

/-- After a `<`, match `[^>]+>`; returns the rest on success. -/
def tagEndGo : List Char → Option (List Char)
  | [] => none
  | '>' :: r => some r
  | _ :: r => tagEndGo r

/-- See `tagEndGo`: the `[^>]+` needs at least one non-`>` character. -/
def tagEnd : List Char → Option (List Char)
  | [] => none
  | c :: rest => if c = '>' then none else tagEndGo rest

/-- The scan of `re.sub(r'<[^>]+>', '', text)`. -/
def subTag : Nat → List Char → List Char
  | 0, l => l
  | _ + 1, [] => []
  | fuel + 1, c :: rest =>
    if c = '<' then
      match tagEnd rest with
      | some r => subTag fuel r
      | none => c :: subTag fuel rest
    else c :: subTag fuel rest

/-- The comment-text cleanup of `cmd_comments`: truncate to 200 characters,
unescape the three HTML entities, turn `<br>` tags into newlines, strip the
remaining tags. -/
def cleanComment (textDisplay : String) : String :=
  let text := textDisplay.take 200
  let text := ((text.replace "&amp;" "&").replace "&lt;" "<").replace "&gt;" ">"
  let l := text.toList
  let l := subBr l.length l
  let l := subTag l.length l
  String.mk l

/-- What `cmd_comments` prints when it returns normally. -/
inductive CommentsOut where
  | disabledMsg
  | noComments
  | comments (items : List (String × String × Nat))
deriving DecidableEq

/-- `cmd_comments`: a `Except.error` value models an exception propagating
out of the function (the bare `raise` in its handler), a `Except.ok` value
a normal return. -/
def cmd_comments (resp : ApiResult (List Comment)) : Except String CommentsOut :=
  match resp with
  | ApiResult.err e =>
    if occursIn "commentsDisabled" e then Except.ok CommentsOut.disabledMsg
    else Except.error e
  | ApiResult.ok items =>
    if items.isEmpty then Except.ok CommentsOut.noComments
    else
      Except.ok (CommentsOut.comments (items.map fun c =>
        (c.authorDisplayName, cleanComment c.textDisplay, c.likeCount)))

/-! ## `cmd_get` (yt_transcripts.py lines 338-435)

Oracles: `fetch` is `fetch_transcript`; `meta` is the video-metadata lookup
(`none`: the call raised or returned no items, leaving the defaults);
`own` is the ownership determination (`none`: an exception was swallowed or
a response had no items, leaving `is_own = False`). -/

/-- The outcome of `cmd_get`: resulting disk state, whether
`fetch_transcript` ran, whether the ownership block ran, and the printed
lines. -/
structure GetOutcome where
  state : CacheState
  fetchCalled : Bool
  ownershipChecked : Bool
  output : List String

/-- The transcript body printed at the end of both branches of `cmd_get`. -/
def printTranscript (timed : Bool) (segments : List Segment) (full_text : String) :
    List String :=
  if timed then
    segments.map fun seg => "[" ++ format_timestamp seg.start ++ "] " ++ seg.text
  else [full_text]

def cmd_get (s : CacheState) (video_id : String) (timed : Bool)
    (fetch : String → Option (List Segment))
    (meta : Option (String × String × String)) (own : Option Bool) : GetOutcome :=
  match s.files video_id with
  | some data =>
    { state := s
      fetchCalled := false
      ownershipChecked := false
      output :=
        ["Title: " ++ data.title, "Video: https://youtu.be/" ++ video_id] ++
          (if data.is_own_video then [] else ["(External video)"]) ++
          ["----------------------------------------"] ++
          printTranscript timed data.segments data.full_text }
  | none =>
    match fetch video_id with
    | none =>
      { state := s
        fetchCalled := true
        ownershipChecked := false
        output := ["Fetching transcript for " ++ video_id ++ "...",
          "No transcript available for this video."] }
    | some segments =>
      let md := meta.getD (video_id, "", "Unknown")
      let title := md.1
      let published := md.2.1
      let channel := md.2.2
      let is_own := own.getD false
      let transcript_data : TranscriptData :=
        { video_id := video_id
          title := title
          published := published
          channel := channel
          is_own_video := is_own
          segments := segments
          full_text := joinSpace (segments.map Segment.text) }
      { state :=
          { files := updFn s.files video_id (some transcript_data)
            index := updFn s.index video_id (some ⟨title, published, true, is_own⟩) }
        fetchCalled := true
        ownershipChecked := true
        output :=
          ["Fetching transcript for " ++ video_id ++ "...",
            "Title: " ++ title, "Channel: " ++ channel,
            "Video: https://youtu.be/" ++ video_id] ++
            (if is_own then [] else ["(External video - cached for searching)"]) ++
            ["----------------------------------------"] ++
            printTranscript timed segments transcript_data.full_text }

/-! ## Concrete demonstration data used by the example parts of the claims -/

/-- The spec's example segment: text "hello world" at offset 42. -/
def demoSegment : Segment := ⟨42, "hello world"⟩

/-- A cached transcript holding the example segment. -/
def demoTranscript : TranscriptData :=
  ⟨"vid1", "Demo video", "2024-01-01", "Chan", true, [demoSegment], "hello world"⟩

/-! ## Helper lemmas -/

theorem pad2_length : ∀ m < 60, (pad2 m).length = 2 := by decide

theorem roundTiesEven_lo (q : ℚ) (z : ℤ) (hf : ⌊q⌋ = z) (hr : q - z < 1/2) :
    roundTiesEven q = z := by
  simp only [roundTiesEven, hf, if_pos hr]

theorem roundTiesEven_hi (q : ℚ) (z : ℤ) (hf : ⌊q⌋ = z) (hr : 1/2 < q - z) :
    roundTiesEven q = z + 1 := by
  simp only [roundTiesEven, hf]
  rw [if_neg (by linarith), if_pos hr]

theorem fmt1_eq (q : ℚ) (z : ℤ) (n : ℕ) (hz : roundTiesEven (q * 10) = z)
    (hn : z.toNat = n) :
    fmt1 q = toString (n / 10) ++ "." ++ toString (n % 10) := by
  simp only [fmt1, hz, hn]

/-! ## Claims -/

/-- Claim C7: for every non-negative second count, `format_timestamp`
returns `H:MM:SS` when the value is at least one hour and `M:SS` otherwise,
with the minute and second fields zero-padded to two digits; in particular
5 → "0:05" and 3661 → "1:01:01". -/
theorem format_timestamp_spec (n : Nat) :
    (3600 ≤ n → format_timestamp n =
      toString (n / 3600) ++ ":" ++ pad2 (n / 60 % 60) ++ ":" ++ pad2 (n % 60)) ∧
    (n < 3600 → format_timestamp n = toString (n / 60) ++ ":" ++ pad2 (n % 60)) ∧
    (pad2 (n / 60 % 60)).length = 2 ∧ (pad2 (n % 60)).length = 2 ∧
    format_timestamp 5 = "0:05" ∧ format_timestamp 3661 = "1:01:01" := by
  refine ⟨?_, ?_, pad2_length _ (by omega), pad2_length _ (by omega),
    by decide, by decide⟩
  · intro h
    have h0 : n / 3600 ≠ 0 := by omega
    have e1 : n % 3600 / 60 = n / 60 % 60 := by omega
    have e2 : n % 3600 % 60 = n % 60 := by omega
    simp only [format_timestamp, if_pos h0, e1, e2]
  · intro h
    have h0 : ¬ n / 3600 ≠ 0 := by omega
    have e1 : n % 3600 / 60 = n / 60 := by omega
    have e2 : n % 3600 % 60 = n % 60 := by omega
    simp only [format_timestamp, if_neg h0, e1, e2]

/-- Witness for `format_timestamp_spec` at the one-hour example. -/
theorem format_timestamp_spec_witness :
    format_timestamp 3661 =
      toString (3661 / 3600) ++ ":" ++ pad2 (3661 / 60 % 60) ++ ":" ++ pad2 (3661 % 60) :=
  (format_timestamp_spec 3661).1 (by decide)

/-- Claim C6: for every non-negative minute count, `format_duration`
returns minutes with one decimal and " min" below 60 minutes, hours with
one decimal and " hrs" from 60 minutes up to 24 hours (= 1440 minutes),
and days with one decimal and " days" beyond; in particular
45 → "45.0 min", 90 → "1.5 hrs", 2000 → "1.4 days". -/
theorem format_duration_spec (q : ℚ) (_h0 : 0 ≤ q) :
    (q < 60 → format_duration q = fmt1 q ++ " min") ∧
    (60 ≤ q → q < 1440 → format_duration q = fmt1 (q / 60) ++ " hrs") ∧
    (1440 ≤ q → format_duration q = fmt1 (q / 60 / 24) ++ " days") ∧
    format_duration 45 = "45.0 min" ∧ format_duration 90 = "1.5 hrs" ∧
    format_duration 2000 = "1.4 days" := by
  refine ⟨?_, ?_, ?_, ?_, ?_, ?_⟩
  · intro h
    simp only [format_duration, if_pos h]
  · intro h1 h2
    have hq : ¬ q < 60 := not_lt.mpr h1
    have hh : q / 60 < 24 := (div_lt_iff₀ (by norm_num)).mpr (by linarith)
    simp only [format_duration, if_neg hq, if_pos hh]
  · intro h1
    have hq : ¬ q < 60 := not_lt.mpr (by linarith)
    have hh : ¬ q / 60 < 24 := not_lt.mpr ((le_div_iff₀ (by norm_num)).mpr (by linarith))
    simp only [format_duration, if_neg hq, if_neg hh]
  · have hc : (45:ℚ) < 60 := by norm_num
    have h10 : (45:ℚ) * 10 = 450 := by norm_num
    have hr : roundTiesEven ((45:ℚ) * 10) = 450 := by
      rw [h10]; exact roundTiesEven_lo _ 450 (by norm_num) (by norm_num)
    simp only [format_duration, if_pos hc, fmt1_eq 45 450 450 hr (by decide)]
    decide
  · have hc1 : ¬ (90:ℚ) < 60 := by norm_num
    have hc2 : (90:ℚ) / 60 < 24 := by norm_num
    have h10 : (90:ℚ) / 60 * 10 = 15 := by norm_num
    have hr : roundTiesEven ((90:ℚ) / 60 * 10) = 15 := by
      rw [h10]; exact roundTiesEven_lo _ 15 (by norm_num) (by norm_num)
    simp only [format_duration, if_neg hc1, if_pos hc2, fmt1_eq _ 15 15 hr (by decide)]
    decide
  · have hc1 : ¬ (2000:ℚ) < 60 := by norm_num
    have hc2 : ¬ (2000:ℚ) / 60 < 24 := by norm_num
    have h10 : (2000:ℚ) / 60 / 24 * 10 = 125 / 9 := by norm_num
    have hf : ⌊(125:ℚ) / 9⌋ = 13 := by norm_num [Int.floor_eq_iff]
    have hr : roundTiesEven ((2000:ℚ) / 60 / 24 * 10) = 14 := by
      rw [h10]
      have := roundTiesEven_hi ((125:ℚ) / 9) 13 hf (by norm_num)
      simpa using this
    simp only [format_duration, if_neg hc1, if_neg hc2, fmt1_eq _ 14 14 hr (by decide)]
    decide

/-- Witness for `format_duration_spec` in the hours range. -/
theorem format_duration_spec_witness :
    format_duration 90 = fmt1 (90 / 60) ++ " hrs" :=
  (format_duration_spec 90 (by decide)).2.1 (by decide) (by decide)

/-- Claim C5: whenever the stored token is expired and a refresh token is
present, `load_credentials` returns a credential whose access token is the
freshly issued one (hence differs from the stored token when the provider
issues a distinct one), and the token file is rewritten to hold the new
access token; when the token file is absent it returns the absent result. -/
theorem load_credentials_spec (td : TokenData) (expired : Bool) (newToken : String) :
    load_credentials none expired newToken = (none, none) ∧
    (expired = true → td.refresh_token ≠ "" → newToken ≠ td.token →
      ∃ c, (load_credentials (some td) expired newToken).1 = some c ∧
        c.token = newToken ∧ c.token ≠ td.token ∧
        (load_credentials (some td) expired newToken).2 =
          some { td with token := newToken }) := by
  refine ⟨rfl, fun he hrt hne => ?_⟩
  refine ⟨⟨newToken, td.refresh_token, td.token_uri, td.client_id,
    td.client_secret, td.scopes⟩, ?_, rfl, hne, ?_⟩ <;>
    simp only [load_credentials, if_pos (And.intro he hrt)]

/-- Witness for `load_credentials_spec`: a concrete expired token with a
refresh token, refreshed to a distinct access token. -/
theorem load_credentials_spec_witness :
    ∃ c, (load_credentials (some ⟨"old", "refresh", "uri", "cid", "sec", ["s"]⟩)
        true "new").1 = some c ∧
      c.token = "new" ∧ c.token ≠ "old" ∧
      (load_credentials (some ⟨"old", "refresh", "uri", "cid", "sec", ["s"]⟩)
        true "new").2 = some ⟨"new", "refresh", "uri", "cid", "sec", ["s"]⟩ :=
  (load_credentials_spec ⟨"old", "refresh", "uri", "cid", "sec", ["s"]⟩ true "new").2
    rfl (by decide) (by decide)

/-- Claim C9: when `load_credentials` refreshes an expired token, the
persisted token file changes only in its access-token field; the
refresh_token, token_uri, client_id, client_secret and scopes fields are
unchanged. -/
theorem load_credentials_frame (td : TokenData) (expired : Bool) (newToken : String)
    (he : expired = true) (hrt : td.refresh_token ≠ "") :
    ∃ td', (load_credentials (some td) expired newToken).2 = some td' ∧
      td'.token = newToken ∧
      td'.refresh_token = td.refresh_token ∧ td'.token_uri = td.token_uri ∧
      td'.client_id = td.client_id ∧ td'.client_secret = td.client_secret ∧
      td'.scopes = td.scopes := by
  refine ⟨{ td with token := newToken }, ?_, rfl, rfl, rfl, rfl, rfl, rfl⟩
  simp only [load_credentials, if_pos (And.intro he hrt)]

/-- Witness for `load_credentials_frame` at a concrete token file. -/
theorem load_credentials_frame_witness :
    ∃ td', (load_credentials (some ⟨"old", "refresh", "uri", "cid", "sec", ["s"]⟩)
        true "new").2 = some td' ∧
      td'.token = "new" ∧
      td'.refresh_token = "refresh" ∧ td'.token_uri = "uri" ∧
      td'.client_id = "cid" ∧ td'.client_secret = "sec" ∧
      td'.scopes = ["s"] :=
  load_credentials_frame ⟨"old", "refresh", "uri", "cid", "sec", ["s"]⟩ true "new"
    rfl (by decide)

/-- Claim C4, counterexample: an API error whose message does not contain
"commentsDisabled" (here a quota error) is re-raised by `cmd_comments`
rather than caught and turned into a normal return. -/
theorem cmd_comments_raise_cex :
    cmd_comments (ApiResult.err "quotaExceeded") = Except.error "quotaExceeded" := by
  have h : occursIn "commentsDisabled" "quotaExceeded" = false := by decide
  simp [cmd_comments, h]

/-- Claim C4, amended: `cmd_comments` catches exactly the API errors whose
message contains "commentsDisabled", printing a user-facing message and
returning normally; every other API error propagates out of the command.
A successful response always returns normally. -/
theorem cmd_comments_spec (e : String) (items : List Comment) :
    (occursIn "commentsDisabled" e = true →
      cmd_comments (ApiResult.err e) = Except.ok CommentsOut.disabledMsg) ∧
    (occursIn "commentsDisabled" e = false →
      cmd_comments (ApiResult.err e) = Except.error e) ∧
    (cmd_comments (ApiResult.ok items)).isOk = true := by
  refine ⟨fun h => by simp [cmd_comments, h], fun h => by simp [cmd_comments, h], ?_⟩
  by_cases h : items.isEmpty <;> simp only [cmd_comments, h, if_true, if_false,
    Bool.false_eq_true, ite_false, ite_true] <;> rfl

/-- Witness for `cmd_comments_spec`: a disabled-comments error is caught. -/
theorem cmd_comments_spec_witness :
    cmd_comments (ApiResult.err "403 commentsDisabled") =
      Except.ok CommentsOut.disabledMsg :=
  (cmd_comments_spec "403 commentsDisabled" []).1 (by decide)

/-- Claim C10: on a cache hit, `cmd_get` performs no writes — the
transcript files, the index and every stored ownership flag are unchanged
— and neither `fetch_transcript` nor the ownership block runs. -/
theorem cmd_get_cache_hit_frame (s : CacheState) (video_id : String) (timed : Bool)
    (fetch : String → Option (List Segment))
    (meta : Option (String × String × String)) (own : Option Bool)
    (h : (s.files video_id).isSome = true) :
    (cmd_get s video_id timed fetch meta own).state = s ∧
    (cmd_get s video_id timed fetch meta own).fetchCalled = false ∧
    (cmd_get s video_id timed fetch meta own).ownershipChecked = false := by
  rcases hd : s.files video_id with _ | data
  · rw [hd] at h; simp at h
  · simp [cmd_get, hd]

/-- Witness for `cmd_get_cache_hit_frame` on a one-file cache. -/
theorem cmd_get_cache_hit_frame_witness :
    (cmd_get ⟨fun k => if k = "vid1" then some demoTranscript else none, fun _ => none⟩
        "vid1" false (fun _ => none) none none).state =
      ⟨fun k => if k = "vid1" then some demoTranscript else none, fun _ => none⟩ ∧
    (cmd_get ⟨fun k => if k = "vid1" then some demoTranscript else none, fun _ => none⟩
        "vid1" false (fun _ => none) none none).fetchCalled = false ∧
    (cmd_get ⟨fun k => if k = "vid1" then some demoTranscript else none, fun _ => none⟩
        "vid1" false (fun _ => none) none none).ownershipChecked = false :=
  cmd_get_cache_hit_frame _ "vid1" false _ none none (by decide)

/-! ### Sync lemmas -/

/-- The sync loop never removes a transcript file. -/
theorem syncVideo_files_mono (fetch : String → Option (List Segment)) (ct : String)
    (force : Bool) (o : SyncOutcome) (v : Video) (k : String)
    (h : (o.state.files k).isSome = true) :
    ((syncVideo fetch ct force o v).state.files k).isSome = true := by
  by_cases hc : (o.state.files v.videoId).isSome = true ∧ ¬ force = true
  · simpa only [syncVideo, if_pos hc] using h
  · rcases hf : fetch v.videoId with _ | segs
    · simpa only [syncVideo, if_neg hc, hf] using h
    · simp only [syncVideo, if_neg hc, hf, updFn]
      by_cases hk : k = v.videoId <;> simp [hk, h]

theorem syncLoop_files_mono (fetch : String → Option (List Segment)) (ct : String)
    (force : Bool) (vs : List Video) (o : SyncOutcome) (k : String)
    (h : (o.state.files k).isSome = true) :
    ((syncLoop fetch ct force vs o).state.files k).isSome = true := by
  induction vs generalizing o with
  | nil => exact h
  | cons v vs ih => exact ih _ (syncVideo_files_mono fetch ct force o v k h)

/-- Without `force`, a video whose file is cached and was not yet fetched
stays cached and unfetched through the rest of the loop. -/
theorem syncLoop_no_refetch (fetch : String → Option (List Segment)) (ct : String)
    (vs : List Video) (o : SyncOutcome) (k : String)
    (h1 : (o.state.files k).isSome = true) (h2 : k ∉ o.fetched) :
    k ∉ (syncLoop fetch ct false vs o).fetched := by
  induction vs generalizing o with
  | nil => exact h2
  | cons v vs ih =>
    refine ih _ (syncVideo_files_mono fetch ct false o v k h1) ?_
    by_cases hc : (o.state.files v.videoId).isSome = true
    · have hcond : (o.state.files v.videoId).isSome = true ∧ ¬ (false : Bool) = true :=
        ⟨hc, by decide⟩
      simpa only [syncVideo, if_pos hcond] using h2
    · have hk : k ≠ v.videoId := fun he => hc (he ▸ h1)
      have hcond : ¬ ((o.state.files v.videoId).isSome = true ∧ ¬ (false : Bool) = true) :=
        fun hco => hc hco.1
      rcases hf : fetch v.videoId with _ | segs <;>
        simp only [syncVideo, if_neg hcond, hf] <;>
        simp [List.mem_append, h2, hk]

/-- Every processed video either increments `skipped` or is fetched. -/
theorem syncVideo_count1 (fetch : String → Option (List Segment)) (ct : String)
    (force : Bool) (o : SyncOutcome) (v : Video) :
    (syncVideo fetch ct force o v).skipped +
      (syncVideo fetch ct force o v).fetched.length =
      o.skipped + o.fetched.length + 1 := by
  by_cases hc : (o.state.files v.videoId).isSome = true ∧ ¬ force = true
  · simp only [syncVideo, if_pos hc]; omega
  · rcases hf : fetch v.videoId with _ | segs <;>
      simp only [syncVideo, if_neg hc, hf, List.length_append, List.length_cons,
        List.length_nil] <;> omega

theorem syncLoop_count1 (fetch : String → Option (List Segment)) (ct : String)
    (force : Bool) (vs : List Video) (o : SyncOutcome) :
    (syncLoop fetch ct force vs o).skipped +
      (syncLoop fetch ct force vs o).fetched.length =
      o.skipped + o.fetched.length + vs.length := by
  induction vs generalizing o with
  | nil => simp [syncLoop]
  | cons v vs ih =>
    have := syncVideo_count1 fetch ct force o v
    have := ih (syncVideo fetch ct force o v)
    simp only [syncLoop, List.length_cons]
    omega

/-- Every fetch attempt ends in `synced` or `failed`. -/
theorem syncVideo_count2 (fetch : String → Option (List Segment)) (ct : String)
    (force : Bool) (o : SyncOutcome) (v : Video)
    (h : o.synced + o.failed = o.fetched.length) :
    (syncVideo fetch ct force o v).synced + (syncVideo fetch ct force o v).failed =
      (syncVideo fetch ct force o v).fetched.length := by
  by_cases hc : (o.state.files v.videoId).isSome = true ∧ ¬ force = true
  · simpa only [syncVideo, if_pos hc] using h
  · rcases hf : fetch v.videoId with _ | segs <;>
      simp only [syncVideo, if_neg hc, hf, List.length_append, List.length_cons,
        List.length_nil] <;> omega

theorem syncLoop_count2 (fetch : String → Option (List Segment)) (ct : String)
    (force : Bool) (vs : List Video) (o : SyncOutcome)
    (h : o.synced + o.failed = o.fetched.length) :
    (syncLoop fetch ct force vs o).synced + (syncLoop fetch ct force vs o).failed =
      (syncLoop fetch ct force vs o).fetched.length := by
  induction vs generalizing o with
  | nil => exact h
  | cons v vs ih => exact ih _ (syncVideo_count2 fetch ct force o v h)

/-- `fetched` and `written` only grow. -/
theorem syncVideo_fetched_grow (fetch : String → Option (List Segment)) (ct : String)
    (force : Bool) (o : SyncOutcome) (v : Video) (k : String) (h : k ∈ o.fetched) :
    k ∈ (syncVideo fetch ct force o v).fetched := by
  by_cases hc : (o.state.files v.videoId).isSome = true ∧ ¬ force = true
  · simpa only [syncVideo, if_pos hc] using h
  · rcases hf : fetch v.videoId with _ | segs <;>
      simp only [syncVideo, if_neg hc, hf, List.mem_append] <;> exact Or.inl h

theorem syncVideo_written_grow (fetch : String → Option (List Segment)) (ct : String)
    (force : Bool) (o : SyncOutcome) (v : Video) (k : String) (h : k ∈ o.written) :
    k ∈ (syncVideo fetch ct force o v).written := by
  by_cases hc : (o.state.files v.videoId).isSome = true ∧ ¬ force = true
  · simpa only [syncVideo, if_pos hc] using h
  · rcases hf : fetch v.videoId with _ | segs <;>
      simp only [syncVideo, if_neg hc, hf, List.mem_append] <;>
      first
      | exact h
      | exact Or.inl h

/-- With `force`, the skip test is dead: every video is fetched. -/
theorem syncVideo_force_fetch (fetch : String → Option (List Segment)) (ct : String)
    (o : SyncOutcome) (v : Video) :
    v.videoId ∈ (syncVideo fetch ct true o v).fetched := by
  have hc : ¬ ((o.state.files v.videoId).isSome = true ∧ ¬ (true : Bool) = true) :=
    fun hco => hco.2 rfl
  rcases hf : fetch v.videoId with _ | segs <;>
    simp [syncVideo, if_neg hc, hf]

/-- With `force`, a video whose fetch succeeds has its file written. -/
theorem syncVideo_force_written (fetch : String → Option (List Segment)) (ct : String)
    (o : SyncOutcome) (v : Video) (hf : (fetch v.videoId).isSome = true) :
    v.videoId ∈ (syncVideo fetch ct true o v).written := by
  have hc : ¬ ((o.state.files v.videoId).isSome = true ∧ ¬ (true : Bool) = true) :=
    fun hco => hco.2 rfl
  rcases hfv : fetch v.videoId with _ | segs
  · rw [hfv] at hf; simp at hf
  · simp [syncVideo, if_neg hc, hfv]

theorem syncLoop_fetched_grow (fetch : String → Option (List Segment)) (ct : String)
    (force : Bool) (vs : List Video) (o : SyncOutcome) (k : String)
    (h : k ∈ o.fetched) : k ∈ (syncLoop fetch ct force vs o).fetched := by
  induction vs generalizing o with
  | nil => exact h
  | cons v vs ih => exact ih _ (syncVideo_fetched_grow fetch ct force o v k h)

theorem syncLoop_written_grow (fetch : String → Option (List Segment)) (ct : String)
    (force : Bool) (vs : List Video) (o : SyncOutcome) (k : String)
    (h : k ∈ o.written) : k ∈ (syncLoop fetch ct force vs o).written := by
  induction vs generalizing o with
  | nil => exact h
  | cons v vs ih => exact ih _ (syncVideo_written_grow fetch ct force o v k h)

theorem syncLoop_force_fetched (fetch : String → Option (List Segment)) (ct : String)
    (vs : List Video) (o : SyncOutcome) (v : Video) (hv : v ∈ vs) :
    v.videoId ∈ (syncLoop fetch ct true vs o).fetched := by
  induction vs generalizing o with
  | nil => cases hv
  | cons w ws ih =>
    rcases List.mem_cons.mp hv with rfl | hv
    · exact syncLoop_fetched_grow fetch ct true ws _ _
        (syncVideo_force_fetch fetch ct o v)
    · exact ih _ hv

theorem syncLoop_force_written (fetch : String → Option (List Segment)) (ct : String)
    (vs : List Video) (o : SyncOutcome) (v : Video) (hv : v ∈ vs)
    (hf : (fetch v.videoId).isSome = true) :
    v.videoId ∈ (syncLoop fetch ct true vs o).written := by
  induction vs generalizing o with
  | nil => cases hv
  | cons w ws ih =>
    rcases List.mem_cons.mp hv with rfl | hv
    · exact syncLoop_written_grow fetch ct true ws _ _
        (syncVideo_force_written fetch ct o v hf)
    · exact ih _ hv

/-- The has-transcript ⇒ file-exists invariant is preserved by one loop
iteration. -/
theorem syncVideo_consistent (fetch : String → Option (List Segment)) (ct : String)
    (force : Bool) (o : SyncOutcome) (v : Video)
    (h : ∀ k e, o.state.index k = some e → e.has_transcript = true →
      (o.state.files k).isSome = true) :
    ∀ k e, (syncVideo fetch ct force o v).state.index k = some e →
      e.has_transcript = true →
      ((syncVideo fetch ct force o v).state.files k).isSome = true := by
  intro k e he ht
  by_cases hc : (o.state.files v.videoId).isSome = true ∧ ¬ force = true
  · simp only [syncVideo, if_pos hc] at he ⊢
    exact h k e he ht
  · rcases hf : fetch v.videoId with _ | segs
    · simp only [syncVideo, if_neg hc, hf, updFn] at he ⊢
      by_cases hk : k = v.videoId
      · rw [if_pos hk] at he
        cases he
        cases ht
      · rw [if_neg hk] at he
        exact h k e he ht
    · simp only [syncVideo, if_neg hc, hf, updFn] at he ⊢
      by_cases hk : k = v.videoId
      · simp [if_pos hk]
      · rw [if_neg hk] at he
        simp only [if_neg hk]
        exact h k e he ht

theorem syncLoop_consistent (fetch : String → Option (List Segment)) (ct : String)
    (force : Bool) (vs : List Video) (o : SyncOutcome)
    (h : ∀ k e, o.state.index k = some e → e.has_transcript = true →
      (o.state.files k).isSome = true) :
    ∀ k e, (syncLoop fetch ct force vs o).state.index k = some e →
      e.has_transcript = true →
      ((syncLoop fetch ct force vs o).state.files k).isSome = true := by
  induction vs generalizing o with
  | nil => exact h
  | cons v vs ih => exact ih _ (syncVideo_consistent fetch ct force o v h)

/-! ### Search-output lemmas -/

/-- The (video_id, timestamp) lexicographic order of the result sort, as a
proposition. -/
def vidLE (a b : SearchResult) : Prop :=
  a.video_id < b.video_id ∨ (a.video_id = b.video_id ∧ a.timestamp ≤ b.timestamp)

theorem searchLE_iff (a b : SearchResult) : searchLE a b = true ↔ vidLE a b := by
  simp only [searchLE, decide_eq_true_eq, vidLE]

theorem searchLE_trans (a b c : SearchResult) (hab : searchLE a b = true)
    (hbc : searchLE b c = true) : searchLE a c = true := by
  rw [searchLE_iff] at hab hbc ⊢
  rcases hab with h1 | ⟨h1, h1'⟩ <;> rcases hbc with h2 | ⟨h2, h2'⟩
  · exact Or.inl (lt_trans h1 h2)
  · exact Or.inl (h2 ▸ h1)
  · exact Or.inl (h1 ▸ h2)
  · exact Or.inr ⟨h1.trans h2, h1'.trans h2'⟩

theorem searchLE_total (a b : SearchResult) : (searchLE a b || searchLE b a) = true := by
  rcases lt_trichotomy a.video_id b.video_id with h | h | h
  · simp [searchLE_iff a b, vidLE, h]
  · rcases Nat.le_total a.timestamp b.timestamp with ht | ht
    · simp [searchLE_iff a b, vidLE, h, ht]
    · simp [searchLE_iff b a, vidLE, h.symm, ht]
  · simp [searchLE_iff b a, vidLE, h]

theorem searchResults_sorted (cache : List TranscriptData) (query : String) :
    (searchResults cache query).Pairwise vidLE :=
  (List.sorted_mergeSort searchLE_trans searchLE_total
    ((cache.map (matchesOf (lower query))).flatten)).imp
    fun h => (searchLE_iff _ _).mp h

theorem hitsOf_nil : hitsOf [] = [] := rfl

theorem hitsOf_cons_hit (r : SearchResult) (l : List OutLine) :
    hitsOf (OutLine.hit r :: l) = r :: hitsOf l := rfl

theorem hitsOf_cons_header (v t : String) (e : Bool) (l : List OutLine) :
    hitsOf (OutLine.header v t e :: l) = hitsOf l := rfl

theorem hitsOf_cons_more (n : Nat) (l : List OutLine) :
    hitsOf (OutLine.more n :: l) = hitsOf l := rfl

theorem hitsOf_cons_found (n : Nat) (q : String) (l : List OutLine) :
    hitsOf (OutLine.found n q :: l) = hitsOf l := rfl

theorem hitsOf_cons_noMatch (q : String) (l : List OutLine) :
    hitsOf (OutLine.noMatch q :: l) = hitsOf l := rfl

theorem headerIds_nil : headerIds [] = [] := rfl

theorem headerIds_cons_hit (r : SearchResult) (l : List OutLine) :
    headerIds (OutLine.hit r :: l) = headerIds l := rfl

theorem headerIds_cons_header (v t : String) (e : Bool) (l : List OutLine) :
    headerIds (OutLine.header v t e :: l) = v :: headerIds l := rfl

theorem headerIds_cons_more (n : Nat) (l : List OutLine) :
    headerIds (OutLine.more n :: l) = headerIds l := rfl

theorem headerIds_cons_found (n : Nat) (q : String) (l : List OutLine) :
    headerIds (OutLine.found n q :: l) = headerIds l := rfl

theorem headerIds_cons_noMatch (q : String) (l : List OutLine) :
    headerIds (OutLine.noMatch q :: l) = headerIds l := rfl

theorem trailerOf_nil : trailerOf [] = none := rfl

theorem trailerOf_cons_hit (r : SearchResult) (l : List OutLine) :
    trailerOf (OutLine.hit r :: l) = trailerOf l := rfl

theorem trailerOf_cons_header (v t : String) (e : Bool) (l : List OutLine) :
    trailerOf (OutLine.header v t e :: l) = trailerOf l := rfl

theorem trailerOf_cons_more (n : Nat) (l : List OutLine) :
    trailerOf (OutLine.more n :: l) = some n := rfl

theorem trailerOf_cons_found (n : Nat) (q : String) (l : List OutLine) :
    trailerOf (OutLine.found n q :: l) = trailerOf l := rfl

theorem trailerOf_cons_noMatch (q : String) (l : List OutLine) :
    trailerOf (OutLine.noMatch q :: l) = trailerOf l := rfl

/-- The printed match rows are exactly the first `max` sorted results. -/
theorem renderLoop_hits (maxR : Nat) :
    ∀ (rs : List SearchResult) (shown : Nat) (cur : Option String),
      hitsOf (renderLoop maxR rs shown cur) = rs.take (maxR - shown) := by
  intro rs
  induction rs with
  | nil => intro shown cur; simp [renderLoop, hitsOf_nil]
  | cons r rest ih =>
    intro shown cur
    by_cases h : maxR ≤ shown
    · have h0 : maxR - shown = 0 := by omega
      simp [renderLoop, if_pos h, hitsOf_cons_more, hitsOf_nil, h0]
    · obtain ⟨k, hk⟩ : ∃ k, maxR - shown = k + 1 := ⟨maxR - shown - 1, by omega⟩
      have hk' : maxR - (shown + 1) = k := by omega
      by_cases hc : cur = some r.video_id <;>
        simp [renderLoop, if_neg h, hc, hitsOf_cons_hit, hitsOf_cons_header,
          ih, hk, hk', List.take_succ_cons]

/-- The trailer line appears exactly when results were suppressed, and
reports their number. -/
theorem renderLoop_trailer (maxR : Nat) :
    ∀ (rs : List SearchResult) (shown : Nat) (cur : Option String),
      trailerOf (renderLoop maxR rs shown cur) =
        if maxR - shown < rs.length then some (rs.length - (maxR - shown)) else none := by
  intro rs
  induction rs with
  | nil => intro shown cur; simp [renderLoop, trailerOf_nil]
  | cons r rest ih =>
    intro shown cur
    by_cases h : maxR ≤ shown
    · have h0 : maxR - shown = 0 := by omega
      simp [renderLoop, if_pos h, trailerOf_cons_more, h0]
    · have hlhs : trailerOf (renderLoop maxR (r :: rest) shown cur) =
          trailerOf (renderLoop maxR rest (shown + 1) (some r.video_id)) := by
        by_cases hc : cur = some r.video_id <;>
          simp [renderLoop, if_neg h, hc, trailerOf_cons_hit, trailerOf_cons_header]
      rw [hlhs, ih]
      by_cases h2 : maxR - (shown + 1) < rest.length
      · rw [if_pos h2, if_pos (by simp [List.length_cons]; omega)]
        exact congrArg some (by simp [List.length_cons]; omega)
      · rw [if_neg h2, if_neg (by simp [List.length_cons]; omega)]

/-- Every printed header id is the id of a shown match. -/
theorem renderLoop_header_sub (maxR : Nat) :
    ∀ (rs : List SearchResult) (shown : Nat) (cur : Option String) (v : String),
      v ∈ headerIds (renderLoop maxR rs shown cur) →
      v ∈ (rs.take (maxR - shown)).map SearchResult.video_id := by
  intro rs
  induction rs with
  | nil => intro shown cur v hv; simp [renderLoop, headerIds_nil] at hv
  | cons r rest ih =>
    intro shown cur v hv
    by_cases h : maxR ≤ shown
    · simp [renderLoop, if_pos h, headerIds_cons_more, headerIds_nil] at hv
    · obtain ⟨k, hk⟩ : ∃ k, maxR - shown = k + 1 := ⟨maxR - shown - 1, by omega⟩
      have hk' : maxR - (shown + 1) = k := by omega
      rw [hk]
      simp only [List.take_succ_cons, List.map_cons, List.mem_cons]
      by_cases hc : cur = some r.video_id
      · rw [renderLoop, if_neg h, if_pos hc, headerIds_cons_hit] at hv
        exact Or.inr (hk' ▸ ih (shown + 1) (some r.video_id) v hv)
      · rw [renderLoop, if_neg h, if_neg hc, headerIds_cons_header,
          headerIds_cons_hit] at hv
        rcases List.mem_cons.mp hv with rfl | hv
        · exact Or.inl rfl
        · exact Or.inr (hk' ▸ ih (shown + 1) (some r.video_id) v hv)

/-- Every shown match id gets a header, provided the loop does not believe
it is already inside that video's group. -/
theorem renderLoop_header_mem (maxR : Nat) :
    ∀ (rs : List SearchResult) (shown : Nat) (cur : Option String) (v : String),
      cur ≠ some v →
      v ∈ (rs.take (maxR - shown)).map SearchResult.video_id →
      v ∈ headerIds (renderLoop maxR rs shown cur) := by
  intro rs
  induction rs with
  | nil => intro shown cur v _ hv; simp at hv
  | cons r rest ih =>
    intro shown cur v hcur hv
    by_cases h : maxR ≤ shown
    · have h0 : maxR - shown = 0 := by omega
      rw [h0] at hv; simp at hv
    · obtain ⟨k, hk⟩ : ∃ k, maxR - shown = k + 1 := ⟨maxR - shown - 1, by omega⟩
      have hk' : maxR - (shown + 1) = k := by omega
      rw [hk] at hv
      simp only [List.take_succ_cons, List.map_cons, List.mem_cons] at hv
      by_cases hveq : v = r.video_id
      · have hc : cur ≠ some r.video_id := fun hh => hcur (hveq ▸ hh)
        subst hveq
        rw [renderLoop, if_neg h, if_neg hc, headerIds_cons_header]
        exact List.mem_cons_self _ _
      · have hv' : v ∈ (rest.take k).map SearchResult.video_id := by
          rcases hv with h1 | h1
          · exact absurd h1 hveq
          · exact h1
        have hcur' : some r.video_id ≠ some v := fun hh =>
          hveq (Option.some.inj hh).symm
        by_cases hc : cur = some r.video_id
        · rw [renderLoop, if_neg h, if_pos hc, headerIds_cons_hit]
          exact ih (shown + 1) (some r.video_id) v hcur' (hk'.symm ▸ hv')
        · rw [renderLoop, if_neg h, if_neg hc, headerIds_cons_header,
            headerIds_cons_hit]
          exact List.mem_cons_of_mem _
            (ih (shown + 1) (some r.video_id) v hcur' (hk'.symm ▸ hv'))

/-- On a list sorted by video id whose ids all dominate `c`, every header
printed while the loop is inside `c`'s group has an id strictly above `c`. -/
theorem renderLoop_header_lb (maxR : Nat) :
    ∀ (rs : List SearchResult) (shown : Nat) (c : String),
      (∀ x ∈ rs, c ≤ x.video_id) →
      rs.Pairwise (fun x y => x.video_id ≤ y.video_id) →
      ∀ v ∈ headerIds (renderLoop maxR rs shown (some c)), c < v := by
  intro rs
  induction rs with
  | nil => intro shown c _ _ v hv; simp [renderLoop, headerIds_nil] at hv
  | cons r rest ih =>
    intro shown c hbound hsort v hv
    by_cases h : maxR ≤ shown
    · simp [renderLoop, if_pos h, headerIds_cons_more, headerIds_nil] at hv
    · have hrest : ∀ x ∈ rest, r.video_id ≤ x.video_id :=
        fun x hx => (List.pairwise_cons.mp hsort).1 x hx
      have hsort' := (List.pairwise_cons.mp hsort).2
      by_cases hc : (some c : Option String) = some r.video_id
      · have hcc : c = r.video_id := Option.some.inj hc
        rw [renderLoop, if_neg h, if_pos hc, headerIds_cons_hit] at hv
        exact hcc ▸ ih (shown + 1) r.video_id hrest hsort' v hv
      · have hle : c ≤ r.video_id := hbound r (List.mem_cons_self _ _)
        have hne : c ≠ r.video_id := fun he => hc (congrArg some he)
        have hlt : c < r.video_id := lt_of_le_of_ne hle hne
        rw [renderLoop, if_neg h, if_neg hc, headerIds_cons_header,
          headerIds_cons_hit] at hv
        rcases List.mem_cons.mp hv with rfl | hv
        · exact hlt
        · exact lt_trans hlt (ih (shown + 1) r.video_id hrest hsort' v hv)

/-- On a sorted result list the loop prints each video's header once:
the printed header ids are strictly increasing. -/
theorem renderLoop_header_sorted (maxR : Nat) :
    ∀ (rs : List SearchResult) (shown : Nat) (cur : Option String),
      rs.Pairwise (fun x y => x.video_id ≤ y.video_id) →
      (∀ c, cur = some c → ∀ x ∈ rs, c ≤ x.video_id) →
      (headerIds (renderLoop maxR rs shown cur)).Pairwise (· < ·) := by
  intro rs
  induction rs with
  | nil => intro shown cur _ _; simp [renderLoop, headerIds_nil]
  | cons r rest ih =>
    intro shown cur hsort hbound
    by_cases h : maxR ≤ shown
    · simp [renderLoop, if_pos h, headerIds_cons_more, headerIds_nil]
    · have hrest : ∀ x ∈ rest, r.video_id ≤ x.video_id :=
        fun x hx => (List.pairwise_cons.mp hsort).1 x hx
      have hsort' := (List.pairwise_cons.mp hsort).2
      by_cases hc : cur = some r.video_id
      · rw [renderLoop, if_neg h, if_pos hc, headerIds_cons_hit]
        exact ih (shown + 1) (some r.video_id) hsort'
          (fun c hcc => (Option.some.inj hcc) ▸ hrest)
      · rw [renderLoop, if_neg h, if_neg hc, headerIds_cons_header, headerIds_cons_hit]
        refine List.pairwise_cons.mpr ⟨?_, ?_⟩
        · exact renderLoop_header_lb maxR rest (shown + 1) r.video_id hrest hsort'
        · exact ih (shown + 1) (some r.video_id) hsort'
            (fun c hcc => (Option.some.inj hcc) ▸ hrest)

/-- Claim C8: for every cache, query and limit, `cmd_search`'s result list
is sorted by (video_id, ascending timestamp) and is a permutation of all
matches; the printed match rows are exactly the first `max_results` sorted
results (so at most `max_results` are shown); each shown video id gets
exactly one header; and the "N more matches" trailer is printed exactly
when more than `max_results` matches exist, with N the number of
suppressed matches. -/
theorem cmd_search_output_spec (cache : List TranscriptData) (query : String)
    (maxR : Nat) :
    (searchResults cache query).Pairwise vidLE ∧
    (searchResults cache query).Perm ((cache.map (matchesOf (lower query))).flatten) ∧
    hitsOf (cmd_search cache query maxR) = (searchResults cache query).take maxR ∧
    (headerIds (cmd_search cache query maxR)).Nodup ∧
    (∀ v, v ∈ headerIds (cmd_search cache query maxR) ↔
      v ∈ ((searchResults cache query).take maxR).map SearchResult.video_id) ∧
    trailerOf (cmd_search cache query maxR) =
      (if maxR < (searchResults cache query).length
        then some ((searchResults cache query).length - maxR) else none) := by
  have hsorted := searchResults_sorted cache query
  have hsorted' : (searchResults cache query).Pairwise
      (fun x y => x.video_id ≤ y.video_id) := by
    refine hsorted.imp ?_
    rintro a b (h | ⟨h, -⟩)
    · exact le_of_lt h
    · exact le_of_eq h
  refine ⟨hsorted, List.mergeSort_perm _ searchLE, ?_, ?_, ?_, ?_⟩
  · by_cases he : (searchResults cache query).isEmpty
    · rw [List.isEmpty_iff] at he
      simp [cmd_search, he, hitsOf_cons_noMatch, hitsOf_nil]
    · simp only [cmd_search, he, Bool.false_eq_true, if_false, hitsOf_cons_found]
      simpa using renderLoop_hits maxR (searchResults cache query) 0 none
  · by_cases he : (searchResults cache query).isEmpty
    · rw [List.isEmpty_iff] at he
      simp [cmd_search, he, headerIds_cons_noMatch, headerIds_nil]
    · simp only [cmd_search, he, Bool.false_eq_true, if_false, headerIds_cons_found]
      exact (renderLoop_header_sorted maxR (searchResults cache query) 0 none
        hsorted' (fun c hcc => Option.noConfusion hcc)).imp ne_of_lt
  · intro v
    by_cases he : (searchResults cache query).isEmpty
    · rw [List.isEmpty_iff] at he
      simp [cmd_search, he, headerIds_cons_noMatch, headerIds_nil]
    · simp only [cmd_search, he, Bool.false_eq_true, if_false, headerIds_cons_found]
      constructor
      · intro hv
        simpa using renderLoop_header_sub maxR (searchResults cache query) 0 none v hv
      · intro hv
        exact renderLoop_header_mem maxR (searchResults cache query) 0 none v
          (fun hh => Option.noConfusion hh) (by simpa using hv)
  · by_cases he : (searchResults cache query).isEmpty
    · rw [List.isEmpty_iff] at he
      simp [cmd_search, he, trailerOf_cons_noMatch, trailerOf_nil]
    · simp only [cmd_search, he, Bool.false_eq_true, if_false, trailerOf_cons_found]
      simpa using renderLoop_trailer maxR (searchResults cache query) 0 none

/-- A one-video uploads playlist used in concrete runs. -/
def demoVideo : Video := ⟨"vid1", "Demo video", "2024-01-01"⟩

/-- A cache state already holding the file for `demoVideo`. -/
def demoCache : CacheState :=
  ⟨fun k => if k = "vid1" then some demoTranscript else none, fun _ => none⟩

/-- A cache state with no files and no index. -/
def emptyCache : CacheState := ⟨fun _ => none, fun _ => none⟩

/-- A dangling index entry: has_transcript is set but no file exists. -/
def danglingEntry : IndexEntry := ⟨"t", "p", true, true⟩

/-- A cache state whose index claims a transcript for "x" with no file. -/
def danglingCache : CacheState :=
  ⟨fun _ => none, fun k => if k = "x" then some danglingEntry else none⟩

/-- Claim C2, counterexample to the `force` half: with `force=true` and a
video whose fetch now fails (captions gone), the cached transcript file is
not overwritten — no write happens at all and the old content stays. -/
theorem cmd_sync_force_cex :
    (cmd_sync [demoVideo] (fun _ => none) "Chan" true demoCache).state.files "vid1" =
      some demoTranscript ∧
    (cmd_sync [demoVideo] (fun _ => none) "Chan" true demoCache).written = [] := by
  decide

/-- Claim C2, amended: without `force`, no video whose cached file already
exists is fetched (each processed video is either counted skipped or
fetched, and every fetch ends in synced or failed) — in particular a second
run after any completed run re-fetches no cached video; with `force=true`
a fetch is attempted for every enumerated video, and the cached file is
(over)written for every video whose fetch succeeds. -/
theorem cmd_sync_spec (videos : List Video) (fetch : String → Option (List Segment))
    (ct : String) (s : CacheState) :
    (∀ v ∈ videos, (s.files v.videoId).isSome = true →
      v.videoId ∉ (cmd_sync videos fetch ct false s).fetched) ∧
    (cmd_sync videos fetch ct false s).skipped +
      (cmd_sync videos fetch ct false s).fetched.length = videos.length ∧
    (cmd_sync videos fetch ct false s).synced + (cmd_sync videos fetch ct false s).failed =
      (cmd_sync videos fetch ct false s).fetched.length ∧
    (∀ force, ∀ v ∈ videos,
      ((cmd_sync videos fetch ct force s).state.files v.videoId).isSome = true →
      v.videoId ∉
        (cmd_sync videos fetch ct false (cmd_sync videos fetch ct force s).state).fetched) ∧
    (∀ v ∈ videos, v.videoId ∈ (cmd_sync videos fetch ct true s).fetched) ∧
    (∀ v ∈ videos, (fetch v.videoId).isSome = true →
      v.videoId ∈ (cmd_sync videos fetch ct true s).written) := by
  refine ⟨?_, ?_, ?_, ?_, ?_, ?_⟩
  · intro v _ h
    exact syncLoop_no_refetch fetch ct videos _ v.videoId h (by simp)
  · simpa using syncLoop_count1 fetch ct false videos ⟨s, 0, 0, 0, [], []⟩
  · exact syncLoop_count2 fetch ct false videos ⟨s, 0, 0, 0, [], []⟩ (by simp)
  · intro force v _ h
    exact syncLoop_no_refetch fetch ct videos _ v.videoId h (by simp)
  · intro v hv
    exact syncLoop_force_fetched fetch ct videos _ v hv
  · intro v hv hf
    exact syncLoop_force_written fetch ct videos _ v hv hf

/-- Witness for `cmd_sync_spec`: on a cache already holding `demoVideo`'s
file, a force-less run does not fetch it. -/
theorem cmd_sync_spec_witness :
    "vid1" ∉ (cmd_sync [demoVideo] (fun _ => none) "Chan" false demoCache).fetched :=
  (cmd_sync_spec [demoVideo] (fun _ => none) "Chan" demoCache).1 demoVideo
    (by decide) (by decide)

/-- Claim C3, counterexample: starting from an index holding a dangling
has_transcript=true entry for a video not in the uploads list, a completed
sync leaves the entry in place with no corresponding file. -/
theorem cmd_sync_dangling_cex :
    (cmd_sync [] (fun _ => none) "Chan" false danglingCache).state.index "x" =
      some danglingEntry ∧
    danglingEntry.has_transcript = true ∧
    (cmd_sync [] (fun _ => none) "Chan" false danglingCache).state.files "x" = none := by
  decide

/-- Claim C3, amended: sync preserves the index-consistency invariant —
if every has_transcript=true entry of the initial index has a cached file,
then after any completed `cmd_sync` run every has_transcript=true entry
still has a cached file. -/
theorem cmd_sync_index_consistent (videos : List Video)
    (fetch : String → Option (List Segment)) (ct : String) (force : Bool)
    (s : CacheState)
    (h : ∀ k e, s.index k = some e → e.has_transcript = true →
      (s.files k).isSome = true) :
    ∀ k e, (cmd_sync videos fetch ct force s).state.index k = some e →
      e.has_transcript = true →
      ((cmd_sync videos fetch ct force s).state.files k).isSome = true :=
  syncLoop_consistent fetch ct force videos ⟨s, 0, 0, 0, [], []⟩ h

/-- Witness for `cmd_sync_index_consistent`: syncing one video with a
successful fetch into an empty cache yields a has_transcript=true entry
whose file exists. -/
theorem cmd_sync_index_consistent_witness :
    ((cmd_sync [demoVideo] (fun _ => some [demoSegment]) "Chan" false
      emptyCache).state.files "vid1").isSome = true :=
  cmd_sync_index_consistent [demoVideo] (fun _ => some [demoSegment]) "Chan" false
    emptyCache (fun _ _ he _ => Option.noConfusion he) "vid1"
    ⟨"Demo video", "2024-01-01", true, true⟩ (by decide) rfl

/-- Claim C1: a search with query `q` matches exactly the segments whose
lowercased text contains the lowercased query as a substring, and each
match carries the matching segment's start offset; in particular a cached
transcript with segment text "hello world" at offset 42 searched for
"HELLO" yields a match with timestamp 42, and that timestamp formats as
"0:42". -/
theorem cmd_search_match_spec (d : TranscriptData) (query : String) :
    (∀ r, r ∈ matchesOf (lower query) d ↔
      ∃ seg ∈ d.segments, (lower query).toList <:+: (lower seg.text).toList ∧
        r = mkResult d seg) ∧
    (∀ seg, (mkResult d seg).timestamp = seg.start) ∧
    mkResult demoTranscript demoSegment ∈ searchResults [demoTranscript] "HELLO" ∧
    (mkResult demoTranscript demoSegment).timestamp = 42 ∧
    format_timestamp 42 = "0:42" := by
  refine ⟨?_, fun seg => rfl, ?_, rfl, by decide⟩
  · intro r
    simp only [matchesOf, List.mem_map, List.mem_filter, occursIn, decide_eq_true_eq]
    constructor
    · rintro ⟨seg, ⟨hmem, hinf⟩, rfl⟩
      exact ⟨seg, hmem, hinf, rfl⟩
    · rintro ⟨seg, hmem, hinf, rfl⟩
      exact ⟨seg, ⟨hmem, hinf⟩, rfl⟩
  · exact (List.mergeSort_perm _ searchLE).mem_iff.mpr (by decide)

end YTSkill
